import Mathlib

/-
Verification of the Gemini proxy orchestration core of the HEALTHAICOACH
repository (netlify/functions/gemini-proxy.js, the multi-model fallback
variant defining MODEL_POOL, enforceImageLimits, tryJSONOnce and
mirrorLanguage).  Embedding conventions: JS strings are String, JS numbers
reaching clampNumber are a variant type JSNum over the rationals, fields
that may be absent are Option types, and JS truthiness of a string is the
test against the empty string.  Metadata fields no claim reads (requestId,
took_ms, usage, raw, safety) are omitted from the response model.  Network
effects are an oracle: a function from the 1-based attempt number to the
outcome of that upstream fetch.
-/

namespace GeminiProxy

/-- Source constant MAX_TRIES: upstream attempts per candidate model. -/
def MAX_TRIES : Nat := 3

/-- Source constant MAX_INLINE_BYTES: 15MB ceiling per media part. -/
def MAX_INLINE_BYTES : Nat := 15 * 1024 * 1024

/-- Source constant MAX_INLINE_BYTES_TOTAL: 60MB aggregate ceiling per request. -/
def MAX_INLINE_BYTES_TOTAL : Nat := 60 * 1024 * 1024

/-- Source constant MODEL_POOL: ordered candidate Gemini model identifiers. -/
def MODEL_POOL : List String :=
  ["gemini-2.0-flash-exp", "gemini-2.0-flash", "gemini-1.5-flash", "gemini-1.5-pro"]

/-- Embedding of JS String.prototype.endsWith, used by approxBase64Bytes. -/
def jsEndsWith (s suf : String) : Bool := decide (suf.data <:+ s.data)

/-- ASCII lowercase of one character: the effect of the i flag of the
ALLOWED_IMAGE and ALLOWED_AUDIO regexes. -/
def lowerChar (c : Char) : Char :=
  if 65 ≤ c.toNat ∧ c.toNat ≤ 90 then Char.ofNat (c.toNat + 32) else c

/-- ASCII lowercase of a string, for the case-insensitive regex tests. -/
def lowerStr (s : String) : String := String.mk (s.data.map lowerChar)

/-- Embedding of ALLOWED_IMAGE.test: the anchored, case-insensitive regex
image\/(png|jpe?g|webp|gif|bmp|svg\+xml) as a full-match membership test
over the lowercased MIME string. -/
def allowedImageTest (mime : String) : Bool :=
  ["image/png", "image/jpg", "image/jpeg", "image/webp",
   "image/gif", "image/bmp", "image/svg+xml"].contains (lowerStr mime)

/-- Embedding of ALLOWED_AUDIO.test: the anchored, case-insensitive regex
audio\/(webm|ogg|mp3|mpeg|wav|m4a|aac|3gpp|3gpp2|mp4) as a full-match
membership test over the lowercased MIME string. -/
def allowedAudioTest (mime : String) : Bool :=
  ["audio/webm", "audio/ogg", "audio/mp3", "audio/mpeg", "audio/wav",
   "audio/m4a", "audio/aac", "audio/3gpp", "audio/3gpp2", "audio/mp4"].contains (lowerStr mime)

/-- Source approxBase64Bytes: string length minus base64 padding, times
0.75, floored.  Multiplication of a Nat-sized length by the exactly
representable float 0.75 is exact, so Math.floor(len * 0.75) equals
len * 3 / 4 in Nat arithmetic.  The leading guard returns 0 for a
non-string or empty argument. -/
def approxBase64Bytes (b64 : String) : Nat :=
  if b64 = "" then 0
  else
    let len := b64.length - (if jsEndsWith b64 "==" then 2 else if jsEndsWith b64 "=" then 1 else 0)
    len * 3 / 4

/-- Normalized image record produced by normalizeImageInputs: MIME type,
base64 payload, and the byte estimate stored in the _bytes field.  The
field is an Option because enforceImageLimits recomputes it with the
nullish-coalescing fallback when absent. -/
structure NormImage where
  mime : String
  data : String
  bytes? : Option Nat
deriving DecidableEq, Repr

/-- Byte size the limit enforcer uses for one image:
img._bytes ?? approxBase64Bytes(img.data || ""). -/
def imgBytes (img : NormImage) : Nat := img.bytes?.getD (approxBase64Bytes img.data)

/-- One part of a Gemini content turn: a text part, or an inline_data
media part carrying mime_type and base64 data. -/
inductive Part where
  | text (s : String)
  | inline (mime_type : String) (data : String)
deriving DecidableEq, Repr

/-- One rejection record emitted by enforceImageLimits. -/
structure RejectedImage where
  mime : String
  bytes : Nat
  reason : String
deriving DecidableEq, Repr

/-- Return value of enforceImageLimits. -/
structure EnforceResult where
  acceptedParts : List Part
  rejected : List RejectedImage
  totalBytes : Nat
deriving DecidableEq, Repr

/-- Accepted inline part built by enforceImageLimits:
inline_data with mime_type and the image data. -/
def mkInlinePart (img : NormImage) : Part := Part.inline img.mime img.data

/-- Rejection reason of enforceImageLimits:
!validType ? "type" : (!withinPerPart ? "per-part" : "total"). -/
def rejectReason (validType withinPerPart : Bool) : String :=
  if !validType then "type" else if !withinPerPart then "per-part" else "total"

/-- Acceptance test of the enforcement loop body: validType (the image
allow-list), withinPerPart (bytes > 0 and bytes within the per-item
ceiling), and withinTotal at the running total. -/
def enforceAccepts (perImageLimit totalLimit t : Nat) (img : NormImage) : Bool :=
  allowedImageTest img.mime &&
    (decide (0 < imgBytes img) && decide (imgBytes img ≤ perImageLimit)) &&
    decide (t + imgBytes img ≤ totalLimit)

/-- Rejection record the loop body emits for one image: the reason is a
function of the item and the per-part ceiling alone, because when the
type and per-part tests both pass the only remaining reason is the
aggregate ceiling. -/
def mkRejectedAt (perImageLimit : Nat) (img : NormImage) : RejectedImage :=
  ⟨img.mime, imgBytes img,
   rejectReason (allowedImageTest img.mime)
     (decide (0 < imgBytes img) && decide (imgBytes img ≤ perImageLimit))⟩

/-- Loop body of enforceImageLimits, threading the running totalBytes.
The source reads const mime = img.mime || "", which is the identity on
strings because the empty string maps to itself. -/
def enforceGo (perImageLimit totalLimit : Nat) : List NormImage → Nat → EnforceResult
  | [], t => ⟨[], [], t⟩
  | img :: rest, t =>
    if enforceAccepts perImageLimit totalLimit t img then
      let r := enforceGo perImageLimit totalLimit rest (t + imgBytes img)
      ⟨mkInlinePart img :: r.acceptedParts, r.rejected, r.totalBytes⟩
    else
      let r := enforceGo perImageLimit totalLimit rest t
      ⟨r.acceptedParts, mkRejectedAt perImageLimit img :: r.rejected, r.totalBytes⟩

/-- Source enforceImageLimits: partition normalized images into accepted
inline parts and rejection records, under a per-item and a running
aggregate byte ceiling. -/
def enforceImageLimits (normalized : List NormImage) (perImageLimit totalLimit : Nat) : EnforceResult :=
  enforceGo perImageLimit totalLimit normalized 0

/-- Input items the enforcer accepts, with the same branching and running
total as enforceGo; proof companion for the partition invariants. -/
def acceptedImages (perImageLimit totalLimit : Nat) : List NormImage → Nat → List NormImage
  | [], _ => []
  | img :: rest, t =>
    if enforceAccepts perImageLimit totalLimit t img then
      img :: acceptedImages perImageLimit totalLimit rest (t + imgBytes img)
    else
      acceptedImages perImageLimit totalLimit rest t

/-- Input items the enforcer rejects, with the same branching and running
total as enforceGo; proof companion for the partition invariants. -/
def rejectedImages (perImageLimit totalLimit : Nat) : List NormImage → Nat → List NormImage
  | [], _ => []
  | img :: rest, t =>
    if enforceAccepts perImageLimit totalLimit t img then
      rejectedImages perImageLimit totalLimit rest (t + imgBytes img)
    else
      img :: rejectedImages perImageLimit totalLimit rest t

/-- Embedding of JS String.prototype.indexOf for one character: the first
index, or -1 when absent. -/
def jsIndexOf (s : String) (c : Char) : Int :=
  match s.data.findIdx? (fun d => d = c) with
  | some i => (i : Int)
  | none => -1

/-- Resolution of one endpoint of JS String.prototype.slice against a
length: a negative index counts from the end (floored at 0), a
non-negative index is capped at the length. -/
def jsSliceIdx (len : Nat) (i : Int) : Nat :=
  if i < 0 then len - (-i).toNat else min i.toNat len

/-- Embedding of JS String.prototype.slice with two endpoints. -/
def jsSlice (s : String) (a b : Int) : String :=
  let len := s.data.length
  String.mk ((s.data.take (jsSliceIdx len b)).drop (jsSliceIdx len a))

/-- Embedding of JS String.prototype.slice with one endpoint. -/
def jsSliceFrom (s : String) (a : Int) : String := jsSlice s a (s.data.length : Int)

/-- Return value of fromDataUrl. -/
structure DataUrlParts where
  mime : String
  data : String
deriving DecidableEq, Repr

/-- Source fromDataUrl: split data:[mime];base64,[payload] at the first
comma; the MIME is the header up to the first semicolon. -/
def fromDataUrl (dataUrl : String) : DataUrlParts :=
  let comma := jsIndexOf dataUrl ','
  let header := jsSlice dataUrl 5 comma
  let mime := if header.data.contains ';' then jsSlice header 0 (jsIndexOf header ';') else header
  ⟨mime, jsSliceFrom dataUrl (comma + 1)⟩

/-- JS truthiness of a possibly-absent string: absent, and the empty
string, are falsy. -/
def truthyStr : Option String → Option String
  | some s => if s = "" then none else some s
  | none => none

/-- JS a || b over possibly-absent strings: the first operand when it is
truthy, otherwise the second operand unchanged. -/
def jsOrStr (a b : Option String) : Option String :=
  match truthyStr a with
  | some s => some s
  | none => b

/-- Heterogeneous media input value: a string (meaningful when it is a
data URL), an object exposing the accepted alias fields (absent or
non-string fields are none), or any other JS value. -/
inductive MediaValue where
  | str (s : String)
  | obj (mime : Option String) (mime_type : Option String) (data : Option String)
        (base64 : Option String) (dataUrl : Option String)
  | other
deriving DecidableEq, Repr

/-- Loop body of normalizeImageInputs for one item.  A data-URL string is
pushed unconditionally; an object resolves mime through the mime and
mime_type aliases with a dataUrl fallback, and the payload through data,
base64 and dataUrl; anything else is skipped. -/
def normalizeImageItem (item : MediaValue) : Option NormImage :=
  match item with
  | .str s =>
    if s.startsWith "data:" then
      let p := fromDataUrl s
      some ⟨p.mime, p.data, some (approxBase64Bytes p.data)⟩
    else none
  | .obj mime mime_type data base64 dataUrl =>
    let mime0 := jsOrStr mime mime_type
    let b64 := jsOrStr data (jsOrStr base64 (some (match truthyStr dataUrl with
      | some u => (fromDataUrl u).data
      | none => "")))
    let mime1 := match truthyStr mime0 with
      | some m => some m
      | none =>
        match dataUrl with
        | some u => some (fromDataUrl u).mime
        | none => mime0
    match truthyStr mime1, truthyStr b64 with
    | some m, some b => some ⟨m, b, some (approxBase64Bytes b)⟩
    | _, _ => none
  | .other => none

/-- Source normalizeImageInputs over an optional images field: a
non-array input yields no images, otherwise the per-item loop. -/
def normalizeImageInputs (images : Option (List MediaValue)) : List NormImage :=
  match images with
  | none => []
  | some l => l.filterMap normalizeImageItem

/-- Audio mime and payload resolution of coerceAudioPart: a data-URL
string, or the object aliases, otherwise nothing. -/
def audioMimeB64 (v : MediaValue) : Option String × Option String :=
  match v with
  | .str s =>
    if s.startsWith "data:" then (some (fromDataUrl s).mime, some (fromDataUrl s).data)
    else (none, none)
  | .obj mime mime_type data base64 dataUrl =>
    (jsOrStr mime mime_type,
     jsOrStr data (jsOrStr base64 (some (match truthyStr dataUrl with
       | some u => (fromDataUrl u).data
       | none => ""))))
  | .other => (none, none)

/-- Source coerceAudioPart: zero or one inline audio part, kept only when
the MIME is allow-listed and the estimated size is within the per-part
ceiling. -/
def coerceAudioPart (audio : Option MediaValue) : List Part :=
  match audio with
  | none => []
  | some v =>
    match truthyStr (audioMimeB64 v).1, truthyStr (audioMimeB64 v).2 with
    | some m, some b =>
      if allowedAudioTest m && decide (approxBase64Bytes b ≤ MAX_INLINE_BYTES) then
        [Part.inline m b]
      else []
    | _, _ => []

/-- Source hasArabic character test: the Arabic Unicode block
U+0600 to U+06FF. -/
def isArabicChar (c : Char) : Bool := decide (0x600 ≤ c.toNat ∧ c.toNat ≤ 0x6FF)

/-- Source hasArabic over a whole string. -/
def hasArabic (s : String) : Bool := s.data.any isArabicChar

/-- Arabic notice mirrorLanguage prepends. -/
def arNotice : String := "**ملاحظة:** الرد باللغة العربية.\n\n"

/-- English notice mirrorLanguage prepends. -/
def enNotice : String := "**Note:** Response in English.\n\n"

/-- Source mirrorLanguage: return empty or already-mirrored text
unchanged, otherwise prepend the target-language notice. -/
def mirrorLanguage (text lang : String) : String :=
  if text = "" then text
  else if lang = "ar" && hasArabic text then text
  else if lang = "en" && !hasArabic text then text
  else if lang = "ar" then arNotice ++ text
  else enNotice ++ text

/-- Source chooseLang: an explicit ar or en force wins, otherwise detect
Arabic in the sample. -/
def chooseLang (force : Option String) (sample : String) : String :=
  if force = some "ar" || force = some "en" then force.getD ""
  else if hasArabic sample then "ar" else "en"

/-- Source textPreview: the first 6000 characters of a truthy string. -/
def textPreview (s : Option String) : String :=
  match truthyStr s with
  | none => ""
  | some str => String.mk (str.data.take 6000)

/-- JS number after unary plus coercion: a finite double (embedded as a
rational), NaN (also the coercion of every non-numeric value), or an
infinity. -/
inductive JSNum where
  | finite (q : ℚ)
  | nan
  | posInf
  | negInf
deriving DecidableEq

/-- Values on which Number.isFinite is false. -/
def jsNonFinite (n : JSNum) : Prop := n = .nan ∨ n = .posInf ∨ n = .negInf

/-- Source clampNumber: Number.isFinite selects the coerced value or the
fallback, then Math.max(min, Math.min(max, v)). -/
def clampNumber (n : JSNum) (lo hi fallback : ℚ) : ℚ :=
  let v := match n with
    | .finite q => q
    | _ => fallback
  max lo (min hi v)

/-- Source buildGuardrails: fixed per-language phrases joined with
newlines; the image-brief line only under useImageBrief, the strict line
unless the level is relaxed. -/
def buildGuardrails (lang : String) (useImageBrief : Bool) (level : String) : String :=
  let mirror := if lang = "ar" then "استخدم نفس لغة المستخدم تلقائيًا (العربية إن كانت ظاهرة)."
    else "Mirror the user\x27s language automatically (English if detected)."
  let beBrief := if lang = "ar" then "كن موجزًا وعمليًا بدون مقدمات أو اعتذارات."
    else "Be concise and practical. No preambles or apologies."
  let imageBrief := if lang = "ar" then "إن كانت هناك صورة: قدّم 3–5 نقاط تنفيذية مختصرة + خطوة واحدة الآن. لا مقدّمات."
    else "If an image is present: return 3–5 tight, actionable bullets + one immediate step. No preamble."
  let strictLine := if lang = "ar" then "تجنّب العموميات والحشو. استخدم نقاط واضحة قابلة للتنفيذ."
    else "Avoid vagueness and fluff. Use clear, executable bullets."
  String.intercalate "\n"
    (([mirror, beBrief, (if useImageBrief then imageBrief else ""),
       (if level ≠ "relaxed" then strictLine else "")]).filter (fun s => s ≠ ""))

/-- Source wrapPrompt: guardrail header and block, a separator, then the
user prompt (the third parameter is unused in the source as well). -/
def wrapPrompt (prompt : Option String) (lang : String) (_useImageBrief : Bool) (guard : String) : String :=
  let head := if lang = "ar" then "تعليمات حراسة موجزة (اتبعها بدقة):"
    else "Concise guardrails (follow strictly):"
  head ++ "\n" ++ guard ++ "\n\n---\n" ++ (match truthyStr prompt with
    | some p => p
    | none => "")

/-- Characters the JS WhiteSpace and LineTerminator productions cover,
which String.prototype.trim strips. -/
def isJsWhitespace (c : Char) : Bool :=
  c.toNat = 9 || c.toNat = 10 || c.toNat = 11 || c.toNat = 12 || c.toNat = 13 ||
  c.toNat = 32 || c.toNat = 0xA0 || c.toNat = 0x1680 ||
  (0x2000 ≤ c.toNat && c.toNat ≤ 0x200A) || c.toNat = 0x2028 || c.toNat = 0x2029 ||
  c.toNat = 0x202F || c.toNat = 0x205F || c.toNat = 0x3000 || c.toNat = 0xFEFF

/-- Embedding of JS String.prototype.trim: strip leading and trailing
whitespace. -/
def jsTrim (s : String) : String :=
  String.mk (((s.data.dropWhile isJsWhitespace).reverse.dropWhile isJsWhitespace).reverse)

/-- One inbound chat message: role, content when it is a string, optional
per-message images and audio. -/
structure Msg where
  role : String
  content : Option String
  images : Option (List MediaValue)
  audio : Option MediaValue
deriving DecidableEq, Repr

/-- One outbound content turn. -/
structure Content where
  role : String
  parts : List Part
deriving DecidableEq, Repr

/-- Role coercion of normalizeMessagesWithMedia: anything unrecognized
becomes user. -/
def safeRole (r : String) : String :=
  if r = "user" || r = "model" || r = "system" then r else "user"

/-- Kept-message test of normalizeMessagesWithMedia: a string content, or
a present images array (truthy even when empty), or a present audio. -/
def msgKept (m : Msg) : Bool := m.content.isSome || m.images.isSome || m.audio.isSome

/-- Loop of normalizeMessagesWithMedia over the kept messages, threading
the injected-once flag.  The first user message receives the wrapped
guardrail text and all top-accepted parts; every message additionally
re-enforces its own images against fresh limits and appends its audio. -/
def normalizeMsgGo (guard : String) (acceptedTop : List Part) : List Msg → Bool → List Content
  | [], _ => []
  | m :: rest, injected =>
    let msgAccepted :=
      (enforceImageLimits (normalizeImageInputs m.images) MAX_INLINE_BYTES MAX_INLINE_BYTES_TOTAL).acceptedParts
    if !injected && m.role = "user" then
      let content := match m.content with
        | some c => if jsTrim c = "" then "" else c
        | none => ""
      let briefFlag := match m.images with
        | some l => decide (0 < l.length)
        | none => false
      let parts := Part.text (wrapPrompt (some content) (chooseLang none content) briefFlag guard) ::
        (acceptedTop ++ msgAccepted ++ coerceAudioPart m.audio)
      ⟨safeRole m.role, parts⟩ :: normalizeMsgGo guard acceptedTop rest true
    else
      let textParts := match m.content with
        | some c => if jsTrim c = "" then [] else [Part.text c]
        | none => []
      ⟨safeRole m.role, textParts ++ msgAccepted ++ coerceAudioPart m.audio⟩ ::
        normalizeMsgGo guard acceptedTop rest injected

/-- Source normalizeMessagesWithMedia: filter to kept messages, map with
the injection flag, drop turns with no parts. -/
def normalizeMessagesWithMedia (messages : List Msg) (guard : String) (acceptedTop : List Part) : List Content :=
  (normalizeMsgGo guard acceptedTop (messages.filter msgKept) false).filter
    (fun c => !c.parts.isEmpty)

/-- Embedding of Array.from(new Set(list)): keep the first occurrence of
each element. -/
def jsSetDedup : List String → List String
  | [] => []
  | a :: rest => a :: jsSetDedup (rest.filter (fun b => decide (b ≠ a)))
termination_by l => l.length
decreasing_by
  simp only [List.length_cons]
  exact Nat.lt_succ_of_le (List.length_filter_le _ _)

/-- Parsed request payload after JSON parsing and destructuring defaults.
Fields no claim reads (stream, include_raw, system, timeout_ms) are
omitted; the modelled execution is the non-streaming JSON path. -/
structure Payload where
  prompt : Option String := none
  messages : Option (List Msg) := none
  images : Option (List MediaValue) := none
  audio : Option MediaValue := none
  model : String := "auto"
  temperature : JSNum := .finite (3/5)
  top_p : JSNum := .finite (9/10)
  max_output_tokens : JSNum := .finite 2048
  mode : Option String := none
  force_lang : Option String := none
  concise_image : Option Bool := none
  guard_level : String := "strict"

/-- Clamped generation parameters. -/
structure GenConfig where
  temperature : ℚ
  topP : ℚ
  maxOutputTokens : ℚ
deriving DecidableEq

/-- Generation config exactly as the handler clamps it: temperature and
top_p into the unit interval with defaults 0.6 and 0.9, token limit into
1..8192 with default 2048. -/
def effectiveGenConfig (p : Payload) : GenConfig :=
  ⟨clampNumber p.temperature 0 1 (3/5),
   clampNumber p.top_p 0 1 (9/10),
   clampNumber p.max_output_tokens 1 8192 2048⟩

/-- Error payload classes the fallback engine produces. -/
inductive ErrBody where
  | upstream (status : Nat) (details : String)
  | emptyBlocked
  | network (details : String)
deriving DecidableEq, Repr

/-- Response body shapes the handler returns; metadata no claim inspects
(requestId, took_ms, usage, raw, safety) is omitted. -/
inductive RespBody where
  | missingPrompt
  | allImagesRejected (per_image_limit_mb total_limit_mb : Nat) (rejected : List (String × Nat))
  | failure (e : ErrBody) (lang : String)
  | success (text model lang : String)
  | unknown (lang : String)
deriving DecidableEq, Repr

/-- HTTP response: status code and body. -/
structure HttpResp where
  statusCode : Nat
  body : RespBody
deriving DecidableEq, Repr

/-- Outcome of one upstream fetch: HTTP-level success carrying the text
of each candidate part, a non-2xx status with its details, or a thrown
network error / timeout. -/
inductive AttemptOutcome where
  | httpOk (parts : List (Option String))
  | httpErr (status : Nat) (details : String)
  | netFail (details : String)

/-- Source shouldRetry: 429, or any status in the 5xx range. -/
def shouldRetry (status : Nat) : Bool := status == 429 || (500 ≤ status && status ≤ 599)

/-- Source mapStatus: 429 kept, 5xx and above mapped to 502, otherwise
status || 500. -/
def mapStatus (status : Nat) : Nat :=
  if status == 429 then 429
  else if 500 ≤ status then 502
  else if status == 0 then 500 else status

/-- Text extraction of tryJSONOnce:
parts.map(p => p?.text || "").join("\n").trim(). -/
def extractText (parts : List (Option String)) : String :=
  jsTrim (String.intercalate "\n" (parts.map (fun p => p.getD "")))

/-- Result of one tryJSONOnce call. -/
inductive TryOut where
  | ok (text : String)
  | err (statusCode : Nat) (e : ErrBody)
deriving DecidableEq, Repr

/-- Terminal interpretation of one attempt: the return paths of the
tryJSONOnce loop body. -/
def attemptStep : AttemptOutcome → TryOut
  | .httpOk parts =>
    let text := extractText parts
    if text = "" then .err 502 .emptyBlocked else .ok text
  | .httpErr s d => .err (mapStatus s) (.upstream s d)
  | .netFail d => .err 500 (.network d)

/-- Retry test of the loop: a non-ok response retries when shouldRetry
accepts its status, a thrown error always retries, an HTTP-level success
(empty or not) never retries. -/
def attemptRetryable : AttemptOutcome → Bool
  | .httpOk _ => false
  | .httpErr s _ => shouldRetry s
  | .netFail _ => true

/-- Attempt loop of tryJSONOnce from a 1-based attempt number with the
given attempts remaining, returning the result and the count of fetches
performed.  A retryable failure continues while more than one attempt
remains, matching the attempt < MAX_TRIES test; the loop in the source
always returns within its bound, so the zero-fuel row is unreachable. -/
def tryAttempts (o : Nat → AttemptOutcome) : Nat → Nat → TryOut × Nat
  | _, 0 => (.err 500 (.network "unreachable"), 0)
  | a, 1 => (attemptStep (o a), 1)
  | a, k + 2 =>
    if attemptRetryable (o a) then
      let r := tryAttempts o (a + 1) (k + 1)
      (r.1, r.2 + 1)
    else (attemptStep (o a), 1)

/-- Source tryJSONOnce for one model: up to MAX_TRIES attempts. -/
def tryJSONOnce (o : Nat → AttemptOutcome) : TryOut × Nat := tryAttempts o 1 MAX_TRIES

/-- Non-streaming fallback loop over candidate models: the first success
returns a 200 envelope with the language-mirrored text, the error of the
last candidate is surfaced with its status, and upstream fetches are
counted.  The oracle is indexed by candidate position, then attempt. -/
def fallbackFrom (lang : String) : List String → (Nat → Nat → AttemptOutcome) → HttpResp × Nat
  | [], _ => (⟨500, .unknown lang⟩, 0)
  | m :: rest, o =>
    let r := tryJSONOnce (o 0)
    match r.1 with
    | .ok t => (⟨200, .success (mirrorLanguage t lang) m lang⟩, r.2)
    | .err sc e =>
      if rest.isEmpty then (⟨sc, .failure e lang⟩, r.2)
      else
        let r2 := fallbackFrom lang rest (fun i => o (i + 1))
        (r2.1, r.2 + r2.2)

/-- State passed from the validation phase to the model loop. -/
structure GateState where
  contents : List Content
  generationConfig : GenConfig
  candidates : List String
  lang : String

/-- Result of the validation phase: an early response, or the state for
the upstream loop. -/
inductive GateResult where
  | early (r : HttpResp)
  | proceed (st : GateState)

/-- Candidate model order: the pool for auto or a falsy model, otherwise
the requested model first, then the pool, deduplicated. -/
def candidateModels (model : String) : List String :=
  if model = "auto" || model = "" then MODEL_POOL
  else jsSetDedup (model :: MODEL_POOL)

/-- All normalized candidate images of a request: top-level images, then
the message-level images in message order. -/
def allCandidateImages (p : Payload) : List NormImage :=
  normalizeImageInputs p.images ++
    (match p.messages with
     | some ms => (ms.map (fun m => normalizeImageInputs m.images)).flatten
     | none => [])

/-- Local contentPreview of the handler: the prompt, or the joined
message contents, previewed for language choice. -/
def contentPreviewOf (p : Payload) : String :=
  textPreview (jsOrStr p.prompt (match p.messages with
    | some ms => some (String.intercalate "\n" (ms.map (fun m => m.content.getD "")))
    | none => none))

/-- Local lang of the handler. -/
def langOf (p : Payload) : String := chooseLang p.force_lang (contentPreviewOf p)

/-- Local combined enforcement result of the handler over all candidate
images. -/
def enfOf (p : Payload) : EnforceResult :=
  enforceImageLimits (allCandidateImages p) MAX_INLINE_BYTES MAX_INLINE_BYTES_TOTAL

/-- Local useImageBrief of the handler; hasAnyImages is the presence of
accepted image parts. -/
def useImageBriefOf (p : Payload) : Bool :=
  (p.concise_image == some true) || (p.mode == some "image_brief") ||
    !(enfOf p).acceptedParts.isEmpty

/-- Local guard block of the handler. -/
def guardOf (p : Payload) : String := buildGuardrails (langOf p) (useImageBriefOf p) p.guard_level

/-- Local contents of the handler: the normalized message turns, or the
single wrapped prompt turn with accepted media and audio. -/
def contentsOf (p : Payload) : List Content :=
  match p.messages with
  | some ms => normalizeMessagesWithMedia ms (guardOf p) (enfOf p).acceptedParts
  | none => [⟨"user", Part.text (wrapPrompt p.prompt (langOf p) (useImageBriefOf p) (guardOf p)) ::
      ((enfOf p).acceptedParts ++ coerceAudioPart p.audio)⟩]

/-- Validation phase of exports.handler on a parsed payload, for the
non-streaming path: the missing-input guard, language choice, combined
media enforcement with the all-rejected 413 guard, then assembly of the
outbound contents, clamped generation config and candidate order. -/
def handlerGate (p : Payload) : GateResult :=
  if (truthyStr p.prompt).isNone && p.messages.isNone then
    .early ⟨400, .missingPrompt⟩
  else if !(allCandidateImages p).isEmpty && (enfOf p).acceptedParts.isEmpty then
    .early ⟨413, .allImagesRejected (MAX_INLINE_BYTES / 1024 / 1024)
      (MAX_INLINE_BYTES_TOTAL / 1024 / 1024)
      ((enfOf p).rejected.map (fun r => (r.mime, r.bytes)))⟩
  else
    .proceed ⟨contentsOf p, effectiveGenConfig p, candidateModels p.model, langOf p⟩

/-- Full non-streaming handler on a parsed payload: the response together
with the number of upstream fetches performed. -/
def handlerRun (p : Payload) (o : Nat → Nat → AttemptOutcome) : HttpResp × Nat :=
  match handlerGate p with
  | .early r => (r, 0)
  | .proceed st => fallbackFrom st.lang st.candidates o

/-- Contents forwarded upstream when the gate proceeds, empty otherwise. -/
def gateContents (g : GateResult) : List Content :=
  match g with
  | .early _ => []
  | .proceed st => st.contents

/-- Whether the gate proceeds to the upstream loop. -/
def gateProceeds (g : GateResult) : Bool :=
  match g with
  | .early _ => false
  | .proceed _ => true

/-- Modelled from the spec: auto-continuation (spec section 4.5) has no
implementation under src; the deduplication window is up to 200
characters of overlap between the tail of the previous chunk and the head
of the new chunk. -/
def overlapWindow : Nat := 200

/-- Modelled from the spec: the last k characters of a chunk. -/
def tailChunk (s : String) (k : Nat) : List Char := s.data.drop (s.data.length - k)

/-- Modelled from the spec: the first k characters of a chunk. -/
def headChunk (s : String) (k : Nat) : List Char := s.data.take k

/-- Modelled from the spec: whether the last k characters of prev equal
the first k characters of next. -/
def overlapMatch (prev next : String) (k : Nat) : Bool :=
  decide (tailChunk prev k = headChunk next k)

/-- Modelled from the spec: the largest matching overlap length not
exceeding the bound. -/
def chunkOverlapAux (prev next : String) : Nat → Nat
  | 0 => 0
  | k + 1 => if overlapMatch prev next (k + 1) then k + 1 else chunkOverlapAux prev next k

/-- Modelled from the spec: overlap length searched within the 200
character window, bounded by both chunk lengths. -/
def chunkOverlap (prev next : String) : Nat :=
  chunkOverlapAux prev next (min overlapWindow (min prev.data.length next.data.length))

/-- Modelled from the spec: concatenate a continuation chunk onto the
previous answer, deduplicating the overlapping head of the new chunk. -/
def joinContinuation (prev next : String) : String :=
  prev ++ String.mk (next.data.drop (chunkOverlap prev next))

/-- Number of base64 characters whose estimate is exactly the 15MB
per-part ceiling. -/
def bigN : Nat := 20971520

/-- Base64 payload of bigN characters, carrying no padding. -/
def bigA : String := String.mk (List.replicate bigN 'A')

/-- One 15MB PNG object input. -/
def bigImg : MediaValue := .obj (some "image/png") none (some bigA) none none

/-- One tiny valid PNG object input, with a one-byte estimate. -/
def tinyImg : MediaValue := .obj (some "image/png") none (some "AA") none none

/-- Message carrying the tiny image. -/
def cexMsg : Msg := ⟨"user", some "hi", some [tinyImg], none⟩

/-- Payload for the C1 counterexample: four 15MB top-level images fill the
aggregate budget exactly, so the message image is rejected by the combined
aggregate check yet re-accepted by the fresh per-message check. -/
def cexPayloadC1 : Payload :=
  { prompt := none, messages := some [cexMsg], images := some [bigImg, bigImg, bigImg, bigImg] }

/-- Payload for the C7 counterexample: no prompt and an empty messages
array. -/
def cexPayloadC7 : Payload := { prompt := none, messages := some [] }

/-- Oracle whose every fetch succeeds with the single text part hi. -/
def okOracle : Nat → Nat → AttemptOutcome := fun _ _ => .httpOk [some "hi"]

/-- Oracle whose every fetch is an HTTP success with no candidate parts. -/
def emptyOracle : Nat → Nat → AttemptOutcome := fun _ _ => .httpOk []

/-- Oracle for the fallback witness: the first candidate hits a 400, the
second succeeds. -/
def cexO : Nat → Nat → AttemptOutcome :=
  fun i _ => if i = 0 then .httpErr 400 "bad" else .httpOk [some "hi"]

/-- Whether a part is inline media rather than text. -/
def isInlinePart : Part → Bool
  | .text _ => false
  | .inline _ _ => true

/-- All inline media parts of an outbound conversation, in order. -/
def inlineParts (cs : List Content) : List Part :=
  ((cs.map (fun c => c.parts)).flatten).filter isInlinePart

/-- Normalized form of bigImg. -/
def bigNorm : NormImage := ⟨"image/png", bigA, some 15728640⟩

/-- Normalized form of tinyImg. -/
def tinyNorm : NormImage := ⟨"image/png", "AA", some 1⟩

/-- Payload whose single image has a MIME type outside the allow-list. -/
def badTypePayload : Payload :=
  { prompt := some "hi", images := some [.obj (some "text/plain") none (some "AAAA") none none] }

/-- Valid-typed image whose one-character payload estimates to zero bytes. -/
def zeroImg : NormImage := ⟨"image/png", "A", none⟩

/-- Normalized image whose MIME type is outside the allow-list. -/
def badImgW : NormImage := ⟨"text/plain", "AAAA", none⟩

/-- First chunk for the continuation witness: sixty letters. -/
def prevW : String := String.mk (List.replicate 60 'a')

/-- Second chunk for the continuation witness: fifty-five letters, so its
first fifty characters duplicate the tail of the first chunk. -/
def nextW : String := String.mk (List.replicate 55 'a')

/-- Helper: data of an appended string. -/
theorem string_data_append (a b : String) : (a ++ b).data = a.data ++ b.data := by
  cases a
  cases b
  rfl

/-- Helper: appending onto a nonempty right summand stays nonempty. -/
theorem string_append_ne_empty (a t : String) (h : t ≠ "") : a ++ t ≠ "" := by
  intro hc
  apply h
  cases a with
  | mk la =>
    cases t with
    | mk lt =>
      have h1 := congrArg String.data hc
      rw [string_data_append] at h1
      have h0 : String.data "" = ([] : List Char) := rfl
      rw [h0] at h1
      have h2 : lt = [] := (List.append_eq_nil.mp h1).2
      subst h2
      rfl

/-- Helper: Arabic detection distributes over append. -/
theorem hasArabic_append (a b : String) :
    hasArabic (a ++ b) = (hasArabic a || hasArabic b) := by
  unfold hasArabic
  rw [string_data_append, List.any_append]

/-- Helper: the Arabic notice contains an Arabic character. -/
theorem hasArabic_arNotice : hasArabic arNotice = true := by decide

/-- Helper: mirrorLanguage maps nonempty text to nonempty text. -/
theorem mirrorLanguage_ne_empty (t l : String) (h : t ≠ "") : mirrorLanguage t l ≠ "" := by
  simp only [mirrorLanguage]
  split
  · exact h
  · split
    · exact h
    · split
      · exact h
      · split
        · exact string_append_ne_empty _ _ h
        · exact string_append_ne_empty _ _ h

/-- C6: for every nonempty upstream text, an Arabic target without Arabic
characters yields the Arabic notice followed by the original text
verbatim; an Arabic target with Arabic characters returns the text
unchanged; an English target without Arabic characters returns the text
unchanged; an English target with Arabic characters yields the English
notice followed by the original text. -/
theorem c6_language_mirroring (text : String) (hne : text ≠ "") :
    (hasArabic text = false → mirrorLanguage text "ar" = arNotice ++ text) ∧
    (hasArabic text = true → mirrorLanguage text "ar" = text) ∧
    (hasArabic text = false → mirrorLanguage text "en" = text) ∧
    (hasArabic text = true → mirrorLanguage text "en" = enNotice ++ text) := by
  refine ⟨fun h => ?_, fun h => ?_, fun h => ?_, fun h => ?_⟩ <;>
    simp [mirrorLanguage, hne, h]

/-- C6 witness: a concrete Arabic-free text gains the Arabic notice. -/
theorem c6_language_mirroring_witness :
    mirrorLanguage "hello" "ar" = arNotice ++ "hello" :=
  (c6_language_mirroring "hello" (by decide)).1 (by decide)

/-- C10 counterexample: with the English target and Arabic input text, a
second application of mirrorLanguage prepends the English notice again,
so the function is not idempotent as claimed. -/
theorem c10_counterexample :
    mirrorLanguage (mirrorLanguage "س" "en") "en" ≠ mirrorLanguage "س" "en" := by decide

/-- C10 amended: mirrorLanguage is idempotent for the Arabic target; for
the English target it is idempotent on texts without Arabic characters
(where it is the identity), but not in general, because the condition for
the English target inspects the whole text, which keeps its Arabic
characters after the notice is prepended. -/
theorem c10_idempotent_amended (text : String) :
    mirrorLanguage (mirrorLanguage text "ar") "ar" = mirrorLanguage text "ar" ∧
    (hasArabic text = false →
      mirrorLanguage (mirrorLanguage text "en") "en" = mirrorLanguage text "en") := by
  constructor
  · by_cases h0 : text = ""
    · subst h0
      simp [mirrorLanguage]
    · cases h1 : hasArabic text with
      | true =>
        have hfix : mirrorLanguage text "ar" = text := by simp [mirrorLanguage, h0, h1]
        rw [hfix, hfix]
      | false =>
        have hres : mirrorLanguage text "ar" = arNotice ++ text := by
          simp [mirrorLanguage, h0, h1]
        rw [hres]
        have hne2 : arNotice ++ text ≠ "" := string_append_ne_empty _ _ h0
        have har : hasArabic (arNotice ++ text) = true := by
          rw [hasArabic_append, hasArabic_arNotice]
          rfl
        simp [mirrorLanguage, hne2, har]
  · intro h
    by_cases h0 : text = ""
    · subst h0
      simp [mirrorLanguage]
    · have hid : mirrorLanguage text "en" = text := by simp [mirrorLanguage, h0, h]
      rw [hid, hid]

/-- C10 witness: idempotence of the English mirroring on Arabic-free text. -/
theorem c10_idempotent_amended_witness :
    mirrorLanguage (mirrorLanguage "hi" "en") "en" = mirrorLanguage "hi" "en" :=
  (c10_idempotent_amended "hi").2 (by decide)

/-- Helper: clampNumber stays within its bounds. -/
theorem clampNumber_bounds (n : JSNum) (lo hi fb : ℚ) (h : lo ≤ hi) :
    lo ≤ clampNumber n lo hi fb ∧ clampNumber n lo hi fb ≤ hi := by
  unfold clampNumber
  exact ⟨le_max_left _ _, max_le h (min_le_left _ _)⟩

/-- C8: the effective temperature and top_p always lie in the unit
interval; finite out-of-range inputs are clamped to the nearest bound,
finite in-range inputs pass through, and non-finite inputs (NaN from any
non-numeric value, and the infinities) are replaced by the documented
defaults 0.6 and 0.9 before clamping. -/
theorem c8_clamping (p : Payload) :
    (0 ≤ (effectiveGenConfig p).temperature ∧ (effectiveGenConfig p).temperature ≤ 1) ∧
    (0 ≤ (effectiveGenConfig p).topP ∧ (effectiveGenConfig p).topP ≤ 1) ∧
    (∀ q : ℚ, p.temperature = .finite q → q < 0 → (effectiveGenConfig p).temperature = 0) ∧
    (∀ q : ℚ, p.temperature = .finite q → 1 < q → (effectiveGenConfig p).temperature = 1) ∧
    (∀ q : ℚ, p.temperature = .finite q → 0 ≤ q → q ≤ 1 → (effectiveGenConfig p).temperature = q) ∧
    (jsNonFinite p.temperature → (effectiveGenConfig p).temperature = 3/5) ∧
    (∀ q : ℚ, p.top_p = .finite q → q < 0 → (effectiveGenConfig p).topP = 0) ∧
    (∀ q : ℚ, p.top_p = .finite q → 1 < q → (effectiveGenConfig p).topP = 1) ∧
    (∀ q : ℚ, p.top_p = .finite q → 0 ≤ q → q ≤ 1 → (effectiveGenConfig p).topP = q) ∧
    (jsNonFinite p.top_p → (effectiveGenConfig p).topP = 9/10) := by
  refine ⟨clampNumber_bounds _ _ _ _ (by norm_num),
          clampNumber_bounds _ _ _ _ (by norm_num), ?_, ?_, ?_, ?_, ?_, ?_, ?_, ?_⟩
  · intro q hq hlt
    show clampNumber p.temperature 0 1 (3/5) = 0
    rw [hq]
    show max 0 (min 1 q) = 0
    rw [min_eq_right (by linarith : q ≤ (1:ℚ)), max_eq_left (le_of_lt hlt)]
  · intro q hq hlt
    show clampNumber p.temperature 0 1 (3/5) = 1
    rw [hq]
    show max 0 (min 1 q) = 1
    rw [min_eq_left (le_of_lt hlt), max_eq_right (by norm_num : (0:ℚ) ≤ 1)]
  · intro q hq h0 h1
    show clampNumber p.temperature 0 1 (3/5) = q
    rw [hq]
    show max 0 (min 1 q) = q
    rw [min_eq_right h1, max_eq_right h0]
  · intro h
    show clampNumber p.temperature 0 1 (3/5) = 3/5
    rcases h with h | h | h <;> rw [h] <;>
      · show max 0 (min 1 (3/5 : ℚ)) = 3/5
        rw [min_eq_right (by norm_num : (3/5:ℚ) ≤ 1), max_eq_right (by norm_num : (0:ℚ) ≤ 3/5)]
  · intro q hq hlt
    show clampNumber p.top_p 0 1 (9/10) = 0
    rw [hq]
    show max 0 (min 1 q) = 0
    rw [min_eq_right (by linarith : q ≤ (1:ℚ)), max_eq_left (le_of_lt hlt)]
  · intro q hq hlt
    show clampNumber p.top_p 0 1 (9/10) = 1
    rw [hq]
    show max 0 (min 1 q) = 1
    rw [min_eq_left (le_of_lt hlt), max_eq_right (by norm_num : (0:ℚ) ≤ 1)]
  · intro q hq h0 h1
    show clampNumber p.top_p 0 1 (9/10) = q
    rw [hq]
    show max 0 (min 1 q) = q
    rw [min_eq_right h1, max_eq_right h0]
  · intro h
    show clampNumber p.top_p 0 1 (9/10) = 9/10
    rcases h with h | h | h <;> rw [h] <;>
      · show max 0 (min 1 (9/10 : ℚ)) = 9/10
        rw [min_eq_right (by norm_num : (9/10:ℚ) ≤ 1), max_eq_right (by norm_num : (0:ℚ) ≤ 9/10)]

/-- C8 witness: an infinite temperature becomes the default 0.6 and a
finite out-of-range top_p clamps to the upper bound. -/
theorem c8_clamping_witness :
    (effectiveGenConfig { temperature := JSNum.posInf, top_p := JSNum.finite 2 }).temperature = 3/5 ∧
    (effectiveGenConfig { temperature := JSNum.posInf, top_p := JSNum.finite 2 }).topP = 1 :=
  ⟨(c8_clamping { temperature := JSNum.posInf, top_p := JSNum.finite 2 }).2.2.2.2.2.1
      (Or.inr (Or.inl rfl)),
   (c8_clamping { temperature := JSNum.posInf, top_p := JSNum.finite 2 }).2.2.2.2.2.2.2.1
      2 rfl (by norm_num)⟩

/-- Helper: the attempt loop at its last allowed attempt. -/
theorem tryAttempts_one (o : Nat → AttemptOutcome) (a : Nat) :
    tryAttempts o a 1 = (attemptStep (o a), 1) := rfl

/-- Helper: the attempt loop with two attempts remaining. -/
theorem tryAttempts_two (o : Nat → AttemptOutcome) (a : Nat) :
    tryAttempts o a 2 =
      (if attemptRetryable (o a) then
        ((tryAttempts o (a + 1) 1).1, (tryAttempts o (a + 1) 1).2 + 1)
      else (attemptStep (o a), 1)) := rfl

/-- Helper: the attempt loop with three attempts remaining. -/
theorem tryAttempts_three (o : Nat → AttemptOutcome) (a : Nat) :
    tryAttempts o a 3 =
      (if attemptRetryable (o a) then
        ((tryAttempts o (a + 1) 2).1, (tryAttempts o (a + 1) 2).2 + 1)
      else (attemptStep (o a), 1)) := rfl

/-- Helper: the result of one tryJSONOnce call is the terminal step of
the first non-retried attempt. -/
theorem tryJSONOnce_fst (o : Nat → AttemptOutcome) :
    (tryJSONOnce o).1 =
      (if attemptRetryable (o 1) then
        (if attemptRetryable (o 2) then attemptStep (o 3) else attemptStep (o 2))
      else attemptStep (o 1)) := by
  by_cases h1 : attemptRetryable (o 1) <;> by_cases h2 : attemptRetryable (o 2) <;>
    simp [tryJSONOnce, MAX_TRIES, tryAttempts_three, tryAttempts_two, tryAttempts_one, h1, h2]

/-- Helper: the fetch count of one tryJSONOnce call, as a function of
which leading attempts were retryable. -/
theorem tryJSONOnce_calls (o : Nat → AttemptOutcome) :
    (tryJSONOnce o).2 =
      (if attemptRetryable (o 1) then (if attemptRetryable (o 2) then 3 else 2) else 1) := by
  by_cases h1 : attemptRetryable (o 1) <;> by_cases h2 : attemptRetryable (o 2) <;>
    simp [tryJSONOnce, MAX_TRIES, tryAttempts_three, tryAttempts_two, tryAttempts_one, h1, h2]

/-- Helper: a successful terminal step carries nonempty extracted text. -/
theorem attemptStep_ok (out : AttemptOutcome) (t : String) (h : attemptStep out = .ok t) :
    t ≠ "" := by
  cases out with
  | httpOk parts =>
    by_cases he : extractText parts = ""
    · simp [attemptStep, he] at h
    · simp [attemptStep, he] at h
      rw [← h]
      exact he
  | httpErr s d => simp [attemptStep] at h
  | netFail d => simp [attemptStep] at h

/-- Helper: a successful tryJSONOnce call carries nonempty text. -/
theorem tryJSONOnce_ok_ne (o : Nat → AttemptOutcome) (t : String)
    (h : (tryJSONOnce o).1 = .ok t) : t ≠ "" := by
  rw [tryJSONOnce_fst] at h
  by_cases h1 : attemptRetryable (o 1) <;> by_cases h2 : attemptRetryable (o 2) <;>
    simp [h1, h2] at h <;> exact attemptStep_ok _ _ h

/-- Helper: one unfolding of the fallback loop on a nonempty candidate
list. -/
theorem fallbackFrom_cons (lang m : String) (rest : List String)
    (o : Nat → Nat → AttemptOutcome) :
    fallbackFrom lang (m :: rest) o =
      (match (tryJSONOnce (o 0)).1 with
       | .ok t => (⟨200, .success (mirrorLanguage t lang) m lang⟩, (tryJSONOnce (o 0)).2)
       | .err sc e =>
         if rest.isEmpty then (⟨sc, .failure e lang⟩, (tryJSONOnce (o 0)).2)
         else ((fallbackFrom lang rest (fun i => o (i + 1))).1,
               (tryJSONOnce (o 0)).2 + (fallbackFrom lang rest (fun i => o (i + 1))).2)) := rfl

/-- C2: shouldRetry accepts exactly 429 and the 5xx range; an attempt is
followed by another attempt exactly when it was an HTTP error with a
retryable status or a network-level failure, up to the per-model maximum
of three fetches; and a first candidate failing with a non-retryable
status is abandoned after exactly one fetch, with control falling to the
remaining candidates. -/
theorem c2_retry_policy :
    (∀ s : Nat, shouldRetry s = true ↔ (s = 429 ∨ (500 ≤ s ∧ s ≤ 599))) ∧
    (∀ out : AttemptOutcome, attemptRetryable out = true ↔
      ((∃ s d, out = .httpErr s d ∧ shouldRetry s = true) ∨ (∃ d, out = .netFail d))) ∧
    (∀ o : Nat → AttemptOutcome,
      (tryJSONOnce o).2 =
        (if attemptRetryable (o 1) then (if attemptRetryable (o 2) then 3 else 2) else 1)) ∧
    (∀ (o : Nat → Nat → AttemptOutcome) (m : String) (rest : List String) (lang : String)
       (s : Nat) (d : String),
      shouldRetry s = false → (o 0) 1 = .httpErr s d → rest ≠ [] →
      fallbackFrom lang (m :: rest) o =
        ((fallbackFrom lang rest (fun i => o (i + 1))).1,
         1 + (fallbackFrom lang rest (fun i => o (i + 1))).2)) := by
  refine ⟨?_, ?_, tryJSONOnce_calls, ?_⟩
  · intro s
    simp [shouldRetry]
  · intro out
    cases out <;> simp [attemptRetryable]
  · intro o m rest lang s d h1 h2 h3
    have htry : tryJSONOnce (o 0) = (.err (mapStatus s) (.upstream s d), 1) := by
      simp [tryJSONOnce, MAX_TRIES, tryAttempts_three, h2, attemptStep, attemptRetryable, h1]
    cases rest with
    | nil => exact absurd rfl h3
    | cons r rs =>
      rw [fallbackFrom_cons, htry]
      simp

/-- C2 witness: a 400 on the first candidate is not retried and control
falls to the second candidate after a single fetch. -/
theorem c2_retry_policy_witness :
    fallbackFrom "en" ["gemini-2.0-flash-exp", "gemini-2.0-flash"] cexO =
      ((fallbackFrom "en" ["gemini-2.0-flash"] (fun i => cexO (i + 1))).1,
       1 + (fallbackFrom "en" ["gemini-2.0-flash"] (fun i => cexO (i + 1))).2) :=
  c2_retry_policy.2.2.2 cexO "gemini-2.0-flash-exp" ["gemini-2.0-flash"] "en" 400 "bad"
    (by decide) rfl (by decide)

/-- C3: when every candidate model returns HTTP success with empty
extracted text, each model is treated as failed (one fetch each, the
orchestrator advancing to the next candidate), and the final response is
the 502 Empty/blocked error; moreover a 200 envelope always carries
nonempty text. -/
theorem c3_empty_response_fallback :
    (∀ (cands : List String) (lang : String) (o : Nat → Nat → AttemptOutcome),
      cands ≠ [] →
      (∀ i, i < cands.length → ∃ ps, (o i) 1 = .httpOk ps ∧ extractText ps = "") →
      fallbackFrom lang cands o = (⟨502, .failure .emptyBlocked lang⟩, cands.length)) ∧
    (∀ (cands : List String) (lang : String) (o : Nat → Nat → AttemptOutcome)
       (t m l2 : String),
      (fallbackFrom lang cands o).1.body = .success t m l2 → t ≠ "") := by
  constructor
  · intro cands
    induction cands with
    | nil => intro lang o hne _; exact absurd rfl hne
    | cons m rest ih =>
      intro lang o _ hempty
      obtain ⟨ps, h1, h2⟩ := hempty 0 (by simp)
      have htry : tryJSONOnce (o 0) = (.err 502 .emptyBlocked, 1) := by
        simp [tryJSONOnce, MAX_TRIES, tryAttempts_three, h1, attemptStep, attemptRetryable, h2]
      cases rest with
      | nil =>
        rw [fallbackFrom_cons, htry]
        simp
      | cons m2 rest2 =>
        have ih2 := ih lang (fun i => o (i + 1)) (by simp)
          (fun i hi => hempty (i + 1) (by simpa using Nat.succ_lt_succ hi))
        rw [fallbackFrom_cons, htry]
        simp [ih2, Nat.add_comm]
  · intro cands
    induction cands with
    | nil => intro lang o t m l2 h; simp [fallbackFrom] at h
    | cons m rest ih =>
      intro lang o t m2 l2 h
      rw [fallbackFrom_cons] at h
      rcases hq : (tryJSONOnce (o 0)).1 with t0 | ⟨sc, e⟩
      · rw [hq] at h
        simp at h
        obtain ⟨h1, -, -⟩ := h
        exact h1 ▸ mirrorLanguage_ne_empty t0 lang (tryJSONOnce_ok_ne (o 0) t0 hq)
      · rw [hq] at h
        cases rest with
        | nil => simp at h
        | cons m3 r3 =>
          simp at h
          exact ih lang (fun i => o (i + 1)) t m2 l2 h

/-- C3 witness: one candidate with an empty HTTP success yields the 502
Empty/blocked error after exactly one fetch. -/
theorem c3_empty_response_fallback_witness :
    fallbackFrom "en" ["gemini-1.5-flash"] emptyOracle =
      (⟨502, .failure .emptyBlocked "en"⟩, 1) :=
  c3_empty_response_fallback.1 ["gemini-1.5-flash"] "en" emptyOracle (by decide)
    (fun _ _ => ⟨[], rfl, rfl⟩)

/-- Helper: full characterization of the enforcement loop: the outputs
are the accepted and rejected input items mapped through the part and
rejection constructors, both item lists are order-preserving sub-lists
partitioning the input, and the total is the running total plus the
accepted byte sum. -/
theorem enforceGo_spec (per tot : Nat) (l : List NormImage) (t : Nat) :
    (enforceGo per tot l t).acceptedParts = (acceptedImages per tot l t).map mkInlinePart ∧
    (enforceGo per tot l t).rejected = (rejectedImages per tot l t).map (mkRejectedAt per) ∧
    (enforceGo per tot l t).totalBytes = t + ((acceptedImages per tot l t).map imgBytes).sum ∧
    List.Sublist (acceptedImages per tot l t) l ∧
    List.Sublist (rejectedImages per tot l t) l ∧
    (∀ x : NormImage, l.count x =
      (acceptedImages per tot l t).count x + (rejectedImages per tot l t).count x) := by
  induction l generalizing t with
  | nil => simp [enforceGo, acceptedImages, rejectedImages]
  | cons img rest ih =>
    by_cases hc : enforceAccepts per tot t img = true
    · obtain ⟨ha, hr, htot, hsa, hsr, hcount⟩ := ih (t + imgBytes img)
      have ea : acceptedImages per tot (img :: rest) t =
          img :: acceptedImages per tot rest (t + imgBytes img) := by
        simp [acceptedImages, hc]
      have er : rejectedImages per tot (img :: rest) t =
          rejectedImages per tot rest (t + imgBytes img) := by
        simp [rejectedImages, hc]
      refine ⟨?_, ?_, ?_, ?_, ?_, ?_⟩
      · simp [enforceGo, hc, ha, ea]
      · simp [enforceGo, hc, hr, er]
      · simp only [enforceGo, hc, if_true, ea, List.map_cons, List.sum_cons]
        rw [htot]
        omega
      · rw [ea]
        exact hsa.cons₂ img
      · rw [er]
        exact hsr.cons img
      · intro x
        rw [ea, er]
        rw [List.count_cons, List.count_cons]
        rw [hcount x]
        omega
    · obtain ⟨ha, hr, htot, hsa, hsr, hcount⟩ := ih t
      have ea : acceptedImages per tot (img :: rest) t =
          acceptedImages per tot rest t := by
        simp [acceptedImages, hc]
      have er : rejectedImages per tot (img :: rest) t =
          img :: rejectedImages per tot rest t := by
        simp [rejectedImages, hc]
      refine ⟨?_, ?_, ?_, ?_, ?_, ?_⟩
      · simp [enforceGo, hc, ha, ea]
      · simp [enforceGo, hc, hr, er]
      · simp [enforceGo, hc, ea, htot]
      · rw [ea]
        exact hsa.cons img
      · rw [er]
        exact hsr.cons₂ img
      · intro x
        rw [ea, er]
        rw [List.count_cons, List.count_cons]
        rw [hcount x]
        omega

/-- Helper: the running total of the enforcement loop never exceeds the
aggregate ceiling once it starts below it. -/
theorem enforceGo_total_le (per tot : Nat) (l : List NormImage) (t : Nat) (h : t ≤ tot) :
    (enforceGo per tot l t).totalBytes ≤ tot := by
  induction l generalizing t with
  | nil => simpa [enforceGo] using h
  | cons img rest ih =>
    by_cases hc : enforceAccepts per tot t img = true
    · have hle : t + imgBytes img ≤ tot := by
        have hc2 := hc
        simp [enforceAccepts] at hc2
        exact hc2.2
      simp only [enforceGo, hc, if_true]
      exact ih (t + imgBytes img) hle
    · simp only [enforceGo, hc, if_false]
      exact ih t h

/-- C9: enforceImageLimits partitions its input: the accepted parts and
rejection records are the images of two order-preserving sub-lists whose
multiset union is the input, and totalBytes is the byte sum of exactly
the accepted items and never exceeds the aggregate limit. -/
theorem c9_enforce_invariants (imgs : List NormImage) (per tot : Nat) :
    (enforceImageLimits imgs per tot).acceptedParts =
      (acceptedImages per tot imgs 0).map mkInlinePart ∧
    (enforceImageLimits imgs per tot).rejected =
      (rejectedImages per tot imgs 0).map (mkRejectedAt per) ∧
    List.Sublist (acceptedImages per tot imgs 0) imgs ∧
    List.Sublist (rejectedImages per tot imgs 0) imgs ∧
    (∀ x : NormImage, imgs.count x =
      (acceptedImages per tot imgs 0).count x + (rejectedImages per tot imgs 0).count x) ∧
    (enforceImageLimits imgs per tot).totalBytes =
      ((acceptedImages per tot imgs 0).map imgBytes).sum ∧
    (enforceImageLimits imgs per tot).totalBytes ≤ tot := by
  obtain ⟨ha, hr, htot, hsa, hsr, hcount⟩ := enforceGo_spec per tot imgs 0
  exact ⟨ha, hr, hsa, hsr, hcount, by rw [enforceImageLimits, htot]; omega,
    enforceGo_total_le per tot imgs 0 (Nat.zero_le tot)⟩

/-- C5 counterexample: a valid-typed image whose payload estimates to
zero bytes neither exceeds the per-item ceiling nor the aggregate
ceiling, yet the enforcer rejects it with reason per-part, because the
per-part test also demands strictly positive size. -/
theorem c5_counterexample :
    enforceImageLimits [zeroImg] MAX_INLINE_BYTES MAX_INLINE_BYTES_TOTAL =
      ⟨[], [⟨"image/png", 0, "per-part"⟩], 0⟩ ∧
    allowedImageTest zeroImg.mime = true ∧
    imgBytes zeroImg = 0 ∧
    imgBytes zeroImg ≤ MAX_INLINE_BYTES ∧
    0 + imgBytes zeroImg ≤ MAX_INLINE_BYTES_TOTAL := by decide

/-- C5 amended: at any running total, an item outside the allow-list is
rejected with reason type; otherwise an item of zero estimated size or
exceeding the per-item ceiling is rejected with reason per-part;
otherwise an item pushing the running total over the aggregate ceiling is
rejected with reason total; otherwise the item is accepted. -/
theorem c5_rejection_reasons_amended (img : NormImage) (rest : List NormImage) (t : Nat) :
    (allowedImageTest img.mime = false →
      enforceGo MAX_INLINE_BYTES MAX_INLINE_BYTES_TOTAL (img :: rest) t =
        ⟨(enforceGo MAX_INLINE_BYTES MAX_INLINE_BYTES_TOTAL rest t).acceptedParts,
         ⟨img.mime, imgBytes img, "type"⟩ ::
           (enforceGo MAX_INLINE_BYTES MAX_INLINE_BYTES_TOTAL rest t).rejected,
         (enforceGo MAX_INLINE_BYTES MAX_INLINE_BYTES_TOTAL rest t).totalBytes⟩) ∧
    (allowedImageTest img.mime = true →
      (imgBytes img = 0 ∨ MAX_INLINE_BYTES < imgBytes img) →
      enforceGo MAX_INLINE_BYTES MAX_INLINE_BYTES_TOTAL (img :: rest) t =
        ⟨(enforceGo MAX_INLINE_BYTES MAX_INLINE_BYTES_TOTAL rest t).acceptedParts,
         ⟨img.mime, imgBytes img, "per-part"⟩ ::
           (enforceGo MAX_INLINE_BYTES MAX_INLINE_BYTES_TOTAL rest t).rejected,
         (enforceGo MAX_INLINE_BYTES MAX_INLINE_BYTES_TOTAL rest t).totalBytes⟩) ∧
    (allowedImageTest img.mime = true → 0 < imgBytes img →
      imgBytes img ≤ MAX_INLINE_BYTES → MAX_INLINE_BYTES_TOTAL < t + imgBytes img →
      enforceGo MAX_INLINE_BYTES MAX_INLINE_BYTES_TOTAL (img :: rest) t =
        ⟨(enforceGo MAX_INLINE_BYTES MAX_INLINE_BYTES_TOTAL rest t).acceptedParts,
         ⟨img.mime, imgBytes img, "total"⟩ ::
           (enforceGo MAX_INLINE_BYTES MAX_INLINE_BYTES_TOTAL rest t).rejected,
         (enforceGo MAX_INLINE_BYTES MAX_INLINE_BYTES_TOTAL rest t).totalBytes⟩) ∧
    (allowedImageTest img.mime = true → 0 < imgBytes img →
      imgBytes img ≤ MAX_INLINE_BYTES → t + imgBytes img ≤ MAX_INLINE_BYTES_TOTAL →
      enforceGo MAX_INLINE_BYTES MAX_INLINE_BYTES_TOTAL (img :: rest) t =
        ⟨mkInlinePart img ::
           (enforceGo MAX_INLINE_BYTES MAX_INLINE_BYTES_TOTAL rest (t + imgBytes img)).acceptedParts,
         (enforceGo MAX_INLINE_BYTES MAX_INLINE_BYTES_TOTAL rest (t + imgBytes img)).rejected,
         (enforceGo MAX_INLINE_BYTES MAX_INLINE_BYTES_TOTAL rest (t + imgBytes img)).totalBytes⟩) := by
  refine ⟨fun h => ?_, fun h h2 => ?_, fun h h2 h3 h4 => ?_, fun h h2 h3 h4 => ?_⟩
  · have hc : enforceAccepts MAX_INLINE_BYTES MAX_INLINE_BYTES_TOTAL t img = false := by
      simp [enforceAccepts, h]
    simp [enforceGo, hc, mkRejectedAt, rejectReason, h]
  · have hpp : (decide (0 < imgBytes img) && decide (imgBytes img ≤ MAX_INLINE_BYTES)) = false := by
      rcases h2 with h2 | h2
      · simp [h2]
      · have hb : decide (imgBytes img ≤ MAX_INLINE_BYTES) = false := by
          simp
          omega
        simp [hb]
    have hc : enforceAccepts MAX_INLINE_BYTES MAX_INLINE_BYTES_TOTAL t img = false := by
      simp only [enforceAccepts, hpp, Bool.and_false, Bool.false_and]
    simp [enforceGo, hc, mkRejectedAt, rejectReason, h, hpp]
  · have hpp : (decide (0 < imgBytes img) && decide (imgBytes img ≤ MAX_INLINE_BYTES)) = true := by
      simp [h2, h3]
    have hc : enforceAccepts MAX_INLINE_BYTES MAX_INLINE_BYTES_TOTAL t img = false := by
      simp [enforceAccepts, h, hpp]
      omega
    simp [enforceGo, hc, mkRejectedAt, rejectReason, h, hpp]
  · have hc : enforceAccepts MAX_INLINE_BYTES MAX_INLINE_BYTES_TOTAL t img = true := by
      simp [enforceAccepts, h, h2, h3, h4]
    simp [enforceGo, hc]

/-- C5 witness: a text MIME at running total zero is rejected with
reason type. -/
theorem c5_rejection_reasons_amended_witness :
    enforceGo MAX_INLINE_BYTES MAX_INLINE_BYTES_TOTAL [badImgW] 0 =
      ⟨(enforceGo MAX_INLINE_BYTES MAX_INLINE_BYTES_TOTAL [] 0).acceptedParts,
       ⟨badImgW.mime, imgBytes badImgW, "type"⟩ ::
         (enforceGo MAX_INLINE_BYTES MAX_INLINE_BYTES_TOTAL [] 0).rejected,
       (enforceGo MAX_INLINE_BYTES MAX_INLINE_BYTES_TOTAL [] 0).totalBytes⟩ :=
  (c5_rejection_reasons_amended badImgW [] 0).1 (by decide)

/-- Helper: the overlap search result never exceeds its bound. -/
theorem chunkOverlapAux_le (prev next : String) (n : Nat) :
    chunkOverlapAux prev next n ≤ n := by
  induction n with
  | zero => simp [chunkOverlapAux]
  | succ k ih =>
    simp only [chunkOverlapAux]
    split
    · exact le_refl _
    · exact Nat.le_succ_of_le ih

/-- Helper: the overlap search result dominates every matching length
below the bound. -/
theorem chunkOverlapAux_ge (prev next : String) (n k : Nat)
    (hk : k ≤ n) (hm : overlapMatch prev next k = true) :
    k ≤ chunkOverlapAux prev next n := by
  induction n with
  | zero =>
    simp only [chunkOverlapAux]
    exact hk
  | succ j ih =>
    simp only [chunkOverlapAux]
    split
    · exact hk
    · rename_i hns
      rcases Nat.lt_or_ge k (j + 1) with hlt | hge
      · exact ih (Nat.lt_succ_iff.mp hlt)
      · have hkj : k = j + 1 := le_antisymm hk hge
        rw [hkj] at hm
        exact absurd hm hns

/-- Helper: a nonzero overlap search result is a matching length. -/
theorem chunkOverlapAux_matched (prev next : String) (n : Nat) :
    chunkOverlapAux prev next n = 0 ∨
    overlapMatch prev next (chunkOverlapAux prev next n) = true := by
  induction n with
  | zero => exact Or.inl rfl
  | succ j ih =>
    simp only [chunkOverlapAux]
    split
    · rename_i hcond
      exact Or.inr hcond
    · exact ih

/-- C4 (modelled from the spec): when the first fifty characters of the
continuation chunk duplicate the last fifty of the previous chunk, the
dedup overlap is at least fifty and itself a matching overlap, and the
joined result is the previous chunk followed by the continuation with
that overlap removed, so its length drops by at least the duplicated
fifty characters: no duplicated run remains at the seam. -/
theorem c4_continuation_dedup (prev next : String)
    (hp : 50 ≤ prev.data.length) (hn : 50 ≤ next.data.length)
    (hdup : tailChunk prev 50 = headChunk next 50) :
    50 ≤ chunkOverlap prev next ∧
    chunkOverlap prev next ≤ next.data.length ∧
    tailChunk prev (chunkOverlap prev next) = headChunk next (chunkOverlap prev next) ∧
    joinContinuation prev next = prev ++ String.mk (next.data.drop (chunkOverlap prev next)) ∧
    (joinContinuation prev next).data.length =
      prev.data.length + next.data.length - chunkOverlap prev next ∧
    (joinContinuation prev next).data.length ≤ prev.data.length + next.data.length - 50 := by
  have hbound : 50 ≤ min overlapWindow (min prev.data.length next.data.length) :=
    le_min (by norm_num [overlapWindow]) (le_min hp hn)
  have hmatch : overlapMatch prev next 50 = true := by
    simp [overlapMatch, hdup]
  have h50 : 50 ≤ chunkOverlap prev next :=
    chunkOverlapAux_ge prev next _ 50 hbound hmatch
  have hle : chunkOverlap prev next ≤ next.data.length :=
    le_trans (chunkOverlapAux_le prev next _)
      (le_trans (min_le_right _ _) (min_le_right _ _))
  have hmatched : tailChunk prev (chunkOverlap prev next) =
      headChunk next (chunkOverlap prev next) := by
    rcases chunkOverlapAux_matched prev next
        (min overlapWindow (min prev.data.length next.data.length)) with h0 | hm
    · have : chunkOverlap prev next = 0 := h0
      omega
    · have hm2 : overlapMatch prev next (chunkOverlap prev next) = true := hm
      simpa [overlapMatch] using hm2
  have hlen : (joinContinuation prev next).data.length =
      prev.data.length + next.data.length - chunkOverlap prev next := by
    have e1 : (joinContinuation prev next).data =
        prev.data ++ next.data.drop (chunkOverlap prev next) := by
      rw [show joinContinuation prev next =
        prev ++ String.mk (next.data.drop (chunkOverlap prev next)) from rfl]
      rw [string_data_append]
    rw [e1, List.length_append, List.length_drop]
    omega
  exact ⟨h50, hle, hmatched, rfl, hlen, by omega⟩

/-- C4 witness: two concrete chunks with a fifty-character duplicate at
the seam. -/
theorem c4_continuation_dedup_witness :
    50 ≤ chunkOverlap prevW nextW ∧
    chunkOverlap prevW nextW ≤ nextW.data.length ∧
    tailChunk prevW (chunkOverlap prevW nextW) = headChunk nextW (chunkOverlap prevW nextW) ∧
    joinContinuation prevW nextW = prevW ++ String.mk (nextW.data.drop (chunkOverlap prevW nextW)) ∧
    (joinContinuation prevW nextW).data.length =
      prevW.data.length + nextW.data.length - chunkOverlap prevW nextW ∧
    (joinContinuation prevW nextW).data.length ≤ prevW.data.length + nextW.data.length - 50 :=
  c4_continuation_dedup prevW nextW (by decide) (by decide) (by decide)

/-- Helper: the candidate list is never empty. -/
theorem candidateModels_ne_nil (m : String) : candidateModels m ≠ [] := by
  unfold candidateModels
  split
  · decide
  · simp [jsSetDedup]

/-- Helper: the fallback loop performs at least one fetch on a nonempty
candidate list. -/
theorem fallback_calls_pos (lang : String) (cands : List String)
    (o : Nat → Nat → AttemptOutcome) (h : cands ≠ []) :
    1 ≤ (fallbackFrom lang cands o).2 := by
  cases cands with
  | nil => exact absurd rfl h
  | cons m rest =>
    have hcalls : 1 ≤ (tryJSONOnce (o 0)).2 := by
      rw [tryJSONOnce_calls]
      by_cases h1 : attemptRetryable (o 0 1) <;> by_cases h2 : attemptRetryable (o 0 2) <;>
        simp [h1, h2]
    rcases htry : tryJSONOnce (o 0) with ⟨r1, r2⟩
    rw [htry] at hcalls
    rw [fallbackFrom_cons, htry]
    rcases r1 with t | ⟨sc, e⟩
    · simpa using hcalls
    · by_cases hre : rest.isEmpty
      · simp [hre]
        simpa using hcalls
      · simp [hre]
        omega

/-- Helper: the candidate order of every proceeding gate state. -/
theorem handlerGate_candidates (p : Payload) (st : GateState)
    (hg : handlerGate p = .proceed st) : st.candidates = candidateModels p.model := by
  unfold handlerGate at hg
  split at hg
  · simp at hg
  · split at hg
    · simp at hg
    · injection hg with h
      rw [← h]

/-- Helper: a proceeding request performs at least one upstream fetch. -/
theorem handlerRun_calls_pos (p : Payload) (o : Nat → Nat → AttemptOutcome)
    (h : gateProceeds (handlerGate p) = true) : 1 ≤ (handlerRun p o).2 := by
  unfold handlerRun
  cases hg : handlerGate p with
  | early r =>
    rw [hg] at h
    simp [gateProceeds] at h
  | proceed st =>
    have hc := handlerGate_candidates p st hg
    have hne : st.candidates ≠ [] := by
      rw [hc]
      exact candidateModels_ne_nil _
    exact fallback_calls_pos st.lang st.candidates o hne

/-- C7 counterexample: a parsed request with no prompt and an empty
messages array is not rejected with a 400; it proceeds and performs an
upstream fetch, returning the upstream text. -/
theorem c7_counterexample :
    handlerRun cexPayloadC7 okOracle =
      (⟨200, .success "hi" "gemini-2.0-flash-exp" "en"⟩, 1) := by decide

/-- C7 amended: a request whose prompt is falsy and whose messages field
is not an array is rejected with a 400 and no upstream fetch; but when
messages is present as an empty array (prompt still falsy, no media), the
guard does not fire and the request proceeds to at least one upstream
fetch. -/
theorem c7_missing_input_amended :
    (∀ (p : Payload) (o : Nat → Nat → AttemptOutcome),
      truthyStr p.prompt = none → p.messages = none →
      handlerRun p o = (⟨400, .missingPrompt⟩, 0)) ∧
    (∀ (p : Payload) (o : Nat → Nat → AttemptOutcome),
      truthyStr p.prompt = none → p.messages = some [] → p.images = none → p.audio = none →
      gateProceeds (handlerGate p) = true ∧ 1 ≤ (handlerRun p o).2) := by
  constructor
  · intro p o h1 h2
    have hcond : ((truthyStr p.prompt).isNone && p.messages.isNone) = true := by
      simp [h1, h2]
    have hg : handlerGate p = .early ⟨400, .missingPrompt⟩ := by
      unfold handlerGate
      rw [if_pos hcond]
    simp [handlerRun, hg]
  · intro p o h1 h2 h3 h4
    have hcond : ((truthyStr p.prompt).isNone && p.messages.isNone) = false := by
      simp [h2]
    have himgs : allCandidateImages p = [] := by
      simp [allCandidateImages, h2, h3, normalizeImageInputs]
    have hgp : gateProceeds (handlerGate p) = true := by
      simp [handlerGate, hcond, himgs, gateProceeds]
    exact ⟨hgp, handlerRun_calls_pos p o hgp⟩

/-- C7 witness: an empty-string prompt with no messages array yields the
400 response and no upstream fetch. -/
theorem c7_missing_input_amended_witness :
    handlerRun { prompt := some "" } okOracle = (⟨400, .missingPrompt⟩, 0) :=
  c7_missing_input_amended.1 { prompt := some "" } okOracle (by decide) rfl

/-- Helper: the characters of bigA. -/
theorem bigA_data : bigA.data = List.replicate bigN 'A' := rfl

/-- Helper: bigA is not the empty string. -/
theorem bigA_ne_empty : bigA ≠ "" := by
  intro h
  have h1 := congrArg String.data h
  rw [bigA_data] at h1
  have h0 : String.data "" = ([] : List Char) := rfl
  rw [h0] at h1
  have h2 := congrArg List.length h1
  rw [List.length_replicate] at h2
  norm_num [bigN] at h2

/-- Helper: bigA is not the two-letter payload. -/
theorem bigA_ne_AA : bigA ≠ "AA" := by
  intro h
  have h1 := congrArg String.data h
  rw [bigA_data] at h1
  have h2 := congrArg List.length h1
  rw [List.length_replicate] at h2
  norm_num [bigN] at h2

/-- Helper: a list containing a letter other than c is no suffix of a
repetition of c. -/
theorem not_suffix_replicate (n : Nat) (l : List Char) (c : Char)
    (hx : ∃ d ∈ l, d ≠ c) : ¬ List.IsSuffix l (List.replicate n c) := by
  rintro ⟨u, hu⟩
  obtain ⟨d, hd, hdc⟩ := hx
  apply hdc
  have hmem : d ∈ List.replicate n c := by
    rw [← hu]
    exact List.mem_append_right u hd
  exact List.eq_of_mem_replicate hmem

/-- Helper: bigA carries no single-padding suffix. -/
theorem jsEndsWith_bigA_one : jsEndsWith bigA "=" = false := by
  simp only [jsEndsWith, decide_eq_false_iff_not, bigA_data]
  exact not_suffix_replicate bigN _ 'A' ⟨'=', by decide, by decide⟩

/-- Helper: bigA carries no double-padding suffix. -/
theorem jsEndsWith_bigA_two : jsEndsWith bigA "==" = false := by
  simp only [jsEndsWith, decide_eq_false_iff_not, bigA_data]
  exact not_suffix_replicate bigN _ 'A' ⟨'=', by decide, by decide⟩

/-- Helper: the length of bigA. -/
theorem bigA_length : bigA.length = bigN := by
  have h : bigA.length = (List.replicate bigN 'A').length := rfl
  rw [h, List.length_replicate]

/-- Helper: the byte estimate of bigA is exactly the per-part ceiling. -/
theorem approx_bigA : approxBase64Bytes bigA = 15728640 := by
  rw [approxBase64Bytes, if_neg bigA_ne_empty]
  rw [jsEndsWith_bigA_two, jsEndsWith_bigA_one]
  simp only [Bool.false_eq_true, if_false]
  rw [bigA_length]
  norm_num [bigN]

/-- Helper: the byte estimate of the two-letter payload. -/
theorem approx_AA : approxBase64Bytes "AA" = 1 := by decide

/-- Helper: normalization of the big object input. -/
theorem norm_bigImg : normalizeImageItem bigImg = some bigNorm := by
  simp [normalizeImageItem, bigImg, jsOrStr, truthyStr, bigA_ne_empty, approx_bigA, bigNorm]

/-- Helper: normalization of the tiny object input. -/
theorem norm_tinyImg : normalizeImageItem tinyImg = some tinyNorm := by
  simp [normalizeImageItem, tinyImg, jsOrStr, truthyStr, approx_AA, tinyNorm]

/-- Helper: the combined candidate images of the C1 counterexample. -/
theorem allCand_c1 :
    allCandidateImages cexPayloadC1 = [bigNorm, bigNorm, bigNorm, bigNorm, tinyNorm] := by
  simp [allCandidateImages, cexPayloadC1, cexMsg, normalizeImageInputs, norm_bigImg, norm_tinyImg]

/-- Helper: the combined enforcement of the C1 counterexample: the four
big images fill the aggregate budget exactly and the message image is
rejected by the aggregate ceiling. -/
theorem enf_c1 : enfOf cexPayloadC1 =
    ⟨[mkInlinePart bigNorm, mkInlinePart bigNorm, mkInlinePart bigNorm, mkInlinePart bigNorm],
     [⟨"image/png", 1, "total"⟩], 62914560⟩ := by
  rw [enfOf, allCand_c1]
  rfl

/-- Helper: the outbound contents of the C1 counterexample: the first
user turn carries the wrapped text, the top-accepted parts, and the
re-accepted per-message image. -/
theorem contents_c1 : contentsOf cexPayloadC1 =
    [⟨"user", Part.text (wrapPrompt (some "hi") (chooseLang none "hi") true
        (guardOf cexPayloadC1)) ::
      ((enfOf cexPayloadC1).acceptedParts ++ [mkInlinePart tinyNorm])⟩] := by
  have hmsg : cexPayloadC1.messages = some [cexMsg] := rfl
  have hnorm : normalizeImageInputs cexMsg.images = [tinyNorm] := by
    simp [cexMsg, normalizeImageInputs, norm_tinyImg]
  simp only [contentsOf, hmsg]
  generalize (enfOf cexPayloadC1).acceptedParts = accTop
  rw [normalizeMessagesWithMedia]
  rw [show ([cexMsg].filter msgKept) = [cexMsg] from by simp [msgKept, cexMsg]]
  rw [normalizeMsgGo]
  rw [hnorm]
  simp only [cexMsg, show jsTrim "hi" = "hi" from by decide,
    show (enforceImageLimits [tinyNorm] MAX_INLINE_BYTES MAX_INLINE_BYTES_TOTAL).acceptedParts =
      [mkInlinePart tinyNorm] from by decide]
  simp [safeRole, coerceAudioPart, normalizeMsgGo]

/-- C1 counterexample: the gate proceeds, and the outbound conversation
contains the inline part of the message image even though the combined
validation rejected that image for the aggregate ceiling: the request
does not proceed with only the accepted subset. -/
theorem c1_counterexample :
    gateProceeds (handlerGate cexPayloadC1) = true ∧
    Part.inline "image/png" "AA" ∈ inlineParts (gateContents (handlerGate cexPayloadC1)) ∧
    Part.inline "image/png" "AA" ∉ (enfOf cexPayloadC1).acceptedParts ∧
    (⟨"image/png", 1, "total"⟩ : RejectedImage) ∈ (enfOf cexPayloadC1).rejected := by
  have hc1 : ((truthyStr cexPayloadC1.prompt).isNone && cexPayloadC1.messages.isNone) = false := rfl
  have hc2 : (!(allCandidateImages cexPayloadC1).isEmpty &&
      (enfOf cexPayloadC1).acceptedParts.isEmpty) = false := by
    rw [enf_c1]
    simp
  have hgate : handlerGate cexPayloadC1 =
      .proceed ⟨contentsOf cexPayloadC1, effectiveGenConfig cexPayloadC1,
        candidateModels cexPayloadC1.model, langOf cexPayloadC1⟩ := by
    unfold handlerGate
    rw [if_neg (by rw [hc1]; exact Bool.false_ne_true),
        if_neg (by rw [hc2]; exact Bool.false_ne_true)]
  refine ⟨by rw [hgate]; rfl, ?_, ?_, ?_⟩
  · rw [hgate]
    show Part.inline "image/png" "AA" ∈ inlineParts (contentsOf cexPayloadC1)
    rw [contents_c1, enf_c1]
    decide
  · rw [enf_c1]
    intro hmem
    simp [mkInlinePart, bigNorm] at hmem
    exact bigA_ne_AA hmem.symm
  · rw [enf_c1]
    decide

/-- Helper: a nonempty list is not isEmpty. -/
theorem isEmpty_false_of_ne_nil {α : Type} (l : List α) (h : l ≠ []) : l.isEmpty = false := by
  cases l with
  | nil => exact absurd rfl h
  | cons a as => rfl

/-- Helper: inline parts pass the inline filter. -/
theorem filter_inline_map (l : List NormImage) :
    (l.map mkInlinePart).filter isInlinePart = l.map mkInlinePart := by
  induction l with
  | nil => rfl
  | cons a as ih => simp [mkInlinePart, isInlinePart, ih]

/-- Helper: the audio coercion yields nothing or one inline part. -/
theorem coerceAudioPart_shape (a : Option MediaValue) :
    coerceAudioPart a = [] ∨ ∃ m b, coerceAudioPart a = [Part.inline m b] := by
  cases a with
  | none => exact Or.inl rfl
  | some v =>
    cases hm : truthyStr (audioMimeB64 v).1 with
    | none => simp [coerceAudioPart, hm]
    | some m =>
      cases hb : truthyStr (audioMimeB64 v).2 with
      | none => simp [coerceAudioPart, hm, hb]
      | some b =>
        simp only [coerceAudioPart, hm, hb]
        split
        · exact Or.inr ⟨_, _, rfl⟩
        · exact Or.inl rfl

/-- Helper: audio parts pass the inline filter. -/
theorem filter_inline_audio (a : Option MediaValue) :
    (coerceAudioPart a).filter isInlinePart = coerceAudioPart a := by
  rcases coerceAudioPart_shape a with h | ⟨m, b, h⟩ <;> rw [h] <;> simp [isInlinePart]

/-- C1 amended: for a request that passes the missing-input guard and
supplies at least one normalized media item, if the combined enforcement
accepts none the handler returns the 413 with both limits and the
per-item rejection list, with no upstream fetch; when some are accepted
the request proceeds, and in the single-prompt path the outbound inline
media is exactly the accepted parts plus the coerced audio (the messages
path re-validates message images per message with a fresh aggregate
budget, so it may additionally send an image rejected only by the
combined aggregate ceiling, as the counterexample shows). -/
theorem c1_media_gate_amended :
    (∀ (p : Payload) (o : Nat → Nat → AttemptOutcome),
      ((truthyStr p.prompt).isNone && p.messages.isNone) = false →
      allCandidateImages p ≠ [] →
      (enfOf p).acceptedParts = [] →
      handlerRun p o =
        (⟨413, .allImagesRejected 15 60
          ((enfOf p).rejected.map (fun r => (r.mime, r.bytes)))⟩, 0)) ∧
    (∀ p : Payload,
      p.messages = none →
      ((truthyStr p.prompt).isNone && p.messages.isNone) = false →
      (!(allCandidateImages p).isEmpty && (enfOf p).acceptedParts.isEmpty) = false →
      inlineParts (gateContents (handlerGate p)) =
        (enfOf p).acceptedParts ++ coerceAudioPart p.audio) := by
  constructor
  · intro p o h1 h2 h3
    have hc2 : (!(allCandidateImages p).isEmpty && (enfOf p).acceptedParts.isEmpty) = true := by
      rw [h3, isEmpty_false_of_ne_nil _ h2]
      rfl
    have hgate : handlerGate p = .early ⟨413, .allImagesRejected
        (MAX_INLINE_BYTES / 1024 / 1024) (MAX_INLINE_BYTES_TOTAL / 1024 / 1024)
        ((enfOf p).rejected.map (fun r => (r.mime, r.bytes)))⟩ := by
      unfold handlerGate
      rw [if_neg (by rw [h1]; exact Bool.false_ne_true), if_pos hc2]
    simp [handlerRun, hgate]
    norm_num [MAX_INLINE_BYTES, MAX_INLINE_BYTES_TOTAL]
  · intro p h1 h2 h3
    have hgate : handlerGate p =
        .proceed ⟨contentsOf p, effectiveGenConfig p, candidateModels p.model, langOf p⟩ := by
      unfold handlerGate
      rw [if_neg (by rw [h2]; exact Bool.false_ne_true),
          if_neg (by rw [h3]; exact Bool.false_ne_true)]
    rw [hgate]
    show inlineParts (contentsOf p) = (enfOf p).acceptedParts ++ coerceAudioPart p.audio
    have hcont : contentsOf p = [⟨"user",
        Part.text (wrapPrompt p.prompt (langOf p) (useImageBriefOf p) (guardOf p)) ::
        ((enfOf p).acceptedParts ++ coerceAudioPart p.audio)⟩] := by
      simp [contentsOf, h1]
    rw [hcont]
    have ha := (enforceGo_spec MAX_INLINE_BYTES MAX_INLINE_BYTES_TOTAL (allCandidateImages p) 0).1
    have ha2 : (enfOf p).acceptedParts =
        (acceptedImages MAX_INLINE_BYTES MAX_INLINE_BYTES_TOTAL (allCandidateImages p) 0).map
          mkInlinePart := ha
    rw [ha2]
    simp only [inlineParts, List.map_cons, List.map_nil, List.flatten_cons, List.flatten_nil,
      List.append_nil, List.filter_cons, List.filter_append]
    rw [filter_inline_map, filter_inline_audio]
    simp [isInlinePart]

/-- C1 witness: a single disallowed-type image yields the 413 with the
limits and the rejection list, and no upstream fetch. -/
theorem c1_media_gate_amended_witness :
    handlerRun badTypePayload okOracle =
      (⟨413, .allImagesRejected 15 60
        ((enfOf badTypePayload).rejected.map (fun r => (r.mime, r.bytes)))⟩, 0) :=
  c1_media_gate_amended.1 badTypePayload okOracle (by decide) (by decide) (by decide)

end GeminiProxy
